import Mathlib

/-!
Verification development for the `zbigniew-mcp` tool server (`src/server.py`).

The server exposes six tools (`execute_shell_command`, `show_file`,
`search_in_file`, `edit_file`, `write_file`, `fetch_page`).  This file gives a
shallow embedding of their logic:

* Python string primitives (`str.splitlines`, `str.count`, `str.replace`,
  universal-newline translation performed by text-mode reads, text-file line
  iteration) are modelled as executable functions on `List Char` / `String`.
* The `edit_file` line-operation engine (sorting the batch by descending
  target line, then applying insert / replace / delete against a mutable line
  array) is modelled over a `LineOp` datatype mirroring the operation dicts.
* Filesystem-dependent behaviour is modelled over `FS := String → Option
  String` (path ↦ content); exception behaviour of the handlers is modelled
  over an oracle `World` whose primitives return `Except PyErr`.
-/

namespace McpServer

/-! ### Python string primitives -/

/-- Characters at which Python `str.splitlines` breaks a line: LF, VT, FF,
CR, FS, GS, RS, NEL, LINE SEPARATOR and PARAGRAPH SEPARATOR (compared by code
point). -/
def isLineBreak (c : Char) : Bool :=
  c.toNat = 10 || c.toNat = 11 || c.toNat = 12 || c.toNat = 13 ||
  c.toNat = 28 || c.toNat = 29 || c.toNat = 30 || c.toNat = 133 ||
  c.toNat = 8232 || c.toNat = 8233

/-- Worker for `str.splitlines`: `cur` is the line collected so far.  A
`"\r\n"` pair counts as a single break; a break that ends the string does not
open a new (empty) line. -/
def slAux : List Char → List Char → List (List Char)
  | cur, [] => [cur]
  | cur, '\r' :: '\n' :: rest => cur :: (if rest.isEmpty then [] else slAux [] rest)
  | cur, c :: rest =>
    if isLineBreak c then cur :: (if rest.isEmpty then [] else slAux [] rest)
    else slAux (cur ++ [c]) rest

/-- Python `str.splitlines` on `List Char` (`"".splitlines() == []`). -/
def pySplitlinesL (s : List Char) : List (List Char) :=
  if s.isEmpty then [] else slAux [] s

/-- Python `"\n".join` on `List Char` lines. -/
def pyJoinNlL : List (List Char) → List Char
  | [] => []
  | [l] => l
  | l :: l2 :: ls => l ++ '\n' :: pyJoinNlL (l2 :: ls)

/-- Universal-newline translation performed by Python text-mode reads
(`Path.read_text`, `open(p, "r")`): `"\r\n"` and lone `"\r"` become `"\n"`. -/
def uNewlinesL : List Char → List Char
  | [] => []
  | '\r' :: '\n' :: rest => '\n' :: uNewlinesL rest
  | '\r' :: rest => '\n' :: uNewlinesL rest
  | c :: rest => c :: uNewlinesL rest

/-- `str.splitlines` on `String`. -/
def pySplitlines (s : String) : List String :=
  (pySplitlinesL s.data).map String.mk

/-- `"\n".join` on `String` lines. -/
def pyJoinNl (ls : List String) : String :=
  String.mk (pyJoinNlL (ls.map String.data))

/-- Universal-newline translation on `String`. -/
def uNewlines (s : String) : String :=
  String.mk (uNewlinesL s.data)

/-! ### Basic lemmas about the splitlines primitives -/

theorem slAux_ne_nil (cur s : List Char) : slAux cur s ≠ [] := by
  induction cur, s using slAux.induct with
  | case1 cur => rw [slAux.eq_1]; exact List.cons_ne_nil _ _
  | case2 cur rest ih => rw [slAux.eq_2]; exact List.cons_ne_nil _ _
  | case3 cur c rest h hb ih =>
    rw [slAux.eq_3 _ _ _ h, if_pos hb]; exact List.cons_ne_nil _ _
  | case4 cur c rest h hb ih =>
    rw [slAux.eq_3 _ _ _ h, if_neg hb]; exact ih

theorem uNewlinesL_eq_nil_iff (s : List Char) : uNewlinesL s = [] ↔ s = [] := by
  induction s using uNewlinesL.induct with
  | case1 => rw [uNewlinesL.eq_1]
  | case2 rest ih => rw [uNewlinesL.eq_2]; simp
  | case3 rest h ih => rw [uNewlinesL.eq_3 _ h]; simp
  | case4 c rest h1 h2 ih => rw [uNewlinesL.eq_4 _ _ h1 h2]; simp

/-- Step lemma for `slAux` at a line break followed by the rest of the input,
excluding the `"\r\n"` pairing case. -/
theorem slAux_cons_break (cur : List Char) (c : Char) (rest : List Char)
    (h : ∀ r1, c = '\r' → rest = '\n' :: r1 → False) (hb : isLineBreak c = true) :
    slAux cur (c :: rest) = cur :: (if rest.isEmpty then [] else slAux [] rest) := by
  rw [slAux.eq_3 _ _ _ h, if_pos hb]

/-- Step lemma for `slAux` at an ordinary (non-break) character. -/
theorem slAux_cons_plain (cur : List Char) (c : Char) (rest : List Char)
    (hb : isLineBreak c = false) :
    slAux cur (c :: rest) = slAux (cur ++ [c]) rest := by
  have h : ∀ r1, c = '\r' → rest = '\n' :: r1 → False := by
    intro r1 hc _; rw [hc] at hb; exact absurd hb (by decide)
  rw [slAux.eq_3 _ _ _ h, if_neg (by rw [hb]; exact Bool.false_ne_true)]

/-- Splitting lines is invariant under universal-newline translation. -/
theorem slAux_uNewlinesL (s : List Char) :
    ∀ cur, slAux cur (uNewlinesL s) = slAux cur s := by
  induction s using uNewlinesL.induct with
  | case1 => intro cur; rw [uNewlinesL.eq_1]
  | case2 rest ih =>
    intro cur
    rw [uNewlinesL.eq_2, slAux.eq_2,
        slAux_cons_break cur '\n' (uNewlinesL rest) (fun r1 hc _ => by cases hc) (by decide)]
    match rest with
    | [] => rw [uNewlinesL.eq_1]
    | d :: r2 =>
      have hne : uNewlinesL (d :: r2) ≠ [] := by
        intro hx; exact absurd ((uNewlinesL_eq_nil_iff _).mp hx) (List.cons_ne_nil _ _)
      rw [if_neg (by rw [List.isEmpty_eq_false.mpr hne]; exact Bool.false_ne_true),
          if_neg (by rw [List.isEmpty_cons]; exact Bool.false_ne_true), ih []]
  | case3 rest h ih =>
    intro cur
    rw [uNewlinesL.eq_3 _ h,
        slAux_cons_break cur '\n' (uNewlinesL rest) (fun r1 hc _ => by cases hc) (by decide),
        slAux_cons_break cur '\r' rest (fun r1 _ hr => h r1 hr) (by decide)]
    match rest with
    | [] => rw [uNewlinesL.eq_1]
    | d :: r2 =>
      have hne : uNewlinesL (d :: r2) ≠ [] := by
        intro hx; exact absurd ((uNewlinesL_eq_nil_iff _).mp hx) (List.cons_ne_nil _ _)
      rw [if_neg (by rw [List.isEmpty_eq_false.mpr hne]; exact Bool.false_ne_true),
          if_neg (by rw [List.isEmpty_cons]; exact Bool.false_ne_true), ih []]
  | case4 c rest h1 h2 ih =>
    intro cur
    rw [uNewlinesL.eq_4 _ _ h1 h2]
    by_cases hb : isLineBreak c = true
    · rw [slAux_cons_break cur c (uNewlinesL rest) (fun r1 hc _ => h2 hc) hb,
          slAux_cons_break cur c rest (fun r1 hc _ => h2 hc) hb]
      match rest with
      | [] => rw [uNewlinesL.eq_1]
      | d :: r2 =>
        have hne : uNewlinesL (d :: r2) ≠ [] := by
          intro hx; exact absurd ((uNewlinesL_eq_nil_iff _).mp hx) (List.cons_ne_nil _ _)
        rw [if_neg (by rw [List.isEmpty_eq_false.mpr hne]; exact Bool.false_ne_true),
            if_neg (by rw [List.isEmpty_cons]; exact Bool.false_ne_true), ih []]
    · have hb2 : isLineBreak c = false := Bool.eq_false_iff.mpr hb
      rw [slAux_cons_plain cur c (uNewlinesL rest) hb2,
          slAux_cons_plain cur c rest hb2]
      exact ih (cur ++ [c])

theorem pySplitlinesL_uNewlinesL (s : List Char) :
    pySplitlinesL (uNewlinesL s) = pySplitlinesL s := by
  unfold pySplitlinesL
  match s with
  | [] => rw [uNewlinesL.eq_1]
  | c :: rest =>
    have hne : uNewlinesL (c :: rest) ≠ [] := by
      intro hx; exact absurd ((uNewlinesL_eq_nil_iff _).mp hx) (List.cons_ne_nil _ _)
    rw [if_neg (by rw [List.isEmpty_eq_false.mpr hne]; exact Bool.false_ne_true),
        if_neg (by rw [List.isEmpty_cons]; exact Bool.false_ne_true),
        slAux_uNewlinesL]

theorem pyJoinNlL_cons_of_ne_nil (l : List Char) (ls : List (List Char)) (h : ls ≠ []) :
    pyJoinNlL (l :: ls) = l ++ '\n' :: pyJoinNlL ls := by
  match ls, h with
  | l2 :: ls2, _ => rfl

theorem getLast?_cons_of_ne_nil {α : Type} (a : α) (l : List α) (h : l ≠ []) :
    (a :: l).getLast? = l.getLast? := by
  match l, h with
  | b :: t, _ => exact List.getLast?_cons_cons

/-- Joining the split lines of a string that ends in a line break is strictly
shorter than the string itself: the trailing break is dropped. -/
theorem pyJoinNlL_slAux_length (cur s : List Char) :
    (∃ c, s.getLast? = some c ∧ isLineBreak c = true) →
    (pyJoinNlL (slAux cur s)).length < cur.length + s.length := by
  induction cur, s using slAux.induct with
  | case1 cur =>
    rintro ⟨c, hc, _⟩
    rw [List.getLast?_nil] at hc
    cases hc
  | case2 cur rest ih =>
    rintro ⟨c, hc, hcb⟩
    rw [slAux.eq_2]
    by_cases hr : rest = []
    · subst hr
      simp only [List.isEmpty_nil, if_pos rfl, pyJoinNlL]
      simp
    · rw [if_neg (by rw [List.isEmpty_eq_false.mpr hr]; exact Bool.false_ne_true),
          pyJoinNlL_cons_of_ne_nil _ _ (slAux_ne_nil [] rest)]
      have hlast : rest.getLast? = some c := by
        rw [getLast?_cons_of_ne_nil '\r' ('\n' :: rest) (List.cons_ne_nil _ _),
            getLast?_cons_of_ne_nil '\n' rest hr] at hc
        exact hc
      have hlt := ih ⟨c, hlast, hcb⟩
      simp only [List.length_append, List.length_cons, List.length_nil] at hlt ⊢
      omega
  | case3 cur c rest h hb ih =>
    rintro ⟨d, hd, hdb⟩
    rw [slAux_cons_break cur c rest h hb]
    by_cases hr : rest = []
    · subst hr
      simp only [List.isEmpty_nil, if_pos rfl, pyJoinNlL]
      simp
    · rw [if_neg (by rw [List.isEmpty_eq_false.mpr hr]; exact Bool.false_ne_true),
          pyJoinNlL_cons_of_ne_nil _ _ (slAux_ne_nil [] rest)]
      have hlast : rest.getLast? = some d := by
        rw [getLast?_cons_of_ne_nil c rest hr] at hd
        exact hd
      have hlt := ih ⟨d, hlast, hdb⟩
      simp only [List.length_append, List.length_cons, List.length_nil] at hlt ⊢
      omega
  | case4 cur c rest h hb ih =>
    rintro ⟨d, hd, hdb⟩
    have hr : rest ≠ [] := by
      intro hx
      subst hx
      rw [List.getLast?_singleton] at hd
      cases hd
      exact hb hdb
    rw [slAux_cons_plain cur c rest (Bool.eq_false_iff.mpr hb)]
    have hlast : rest.getLast? = some d := by
      rw [getLast?_cons_of_ne_nil c rest hr] at hd
      exact hd
    have hlt := ih ⟨d, hlast, hdb⟩
    simp only [List.length_append, List.length_cons, List.length_nil] at hlt ⊢
    omega

theorem map_data_map_mk (ls : List (List Char)) :
    (ls.map String.mk).map String.data = ls := by
  rw [List.map_map]
  exact List.map_id ls

/-- The `uNewlinesL` translation preserves a trailing `'\n'`. -/
theorem uNewlinesL_getLast_nl (s : List Char) :
    s.getLast? = some '\n' → (uNewlinesL s).getLast? = some '\n' := by
  induction s using uNewlinesL.induct with
  | case1 =>
    intro h
    rw [List.getLast?_nil] at h
    cases h
  | case2 rest ih =>
    intro h
    rw [uNewlinesL.eq_2]
    by_cases hr : rest = []
    · subst hr; rfl
    · have hne : uNewlinesL rest ≠ [] := by
        intro hx; exact hr ((uNewlinesL_eq_nil_iff rest).mp hx)
      rw [getLast?_cons_of_ne_nil '\n' _ hne]
      apply ih
      rw [getLast?_cons_of_ne_nil '\r' ('\n' :: rest) (List.cons_ne_nil _ _),
          getLast?_cons_of_ne_nil '\n' rest hr] at h
      exact h
  | case3 rest h1 ih =>
    intro h
    rw [uNewlinesL.eq_3 _ h1]
    by_cases hr : rest = []
    · subst hr
      rw [List.getLast?_singleton] at h
      cases h
    · have hne : uNewlinesL rest ≠ [] := by
        intro hx; exact hr ((uNewlinesL_eq_nil_iff rest).mp hx)
      rw [getLast?_cons_of_ne_nil '\n' _ hne]
      apply ih
      rw [getLast?_cons_of_ne_nil '\r' rest hr] at h
      exact h
  | case4 c rest h1 h2 ih =>
    intro h
    rw [uNewlinesL.eq_4 _ _ h1 h2]
    by_cases hr : rest = []
    · subst hr
      rw [List.getLast?_singleton] at h
      cases h
      rfl
    · have hne : uNewlinesL rest ≠ [] := by
        intro hx; exact hr ((uNewlinesL_eq_nil_iff rest).mp hx)
      rw [getLast?_cons_of_ne_nil c _ hne]
      apply ih
      rw [getLast?_cons_of_ne_nil c rest hr] at h
      exact h

/-- A string ending in `'\n'`, once read back (with universal-newline
translation), strictly shrinks under splitting into lines and rejoining with
`"\n"`: the trailing newline is dropped. -/
theorem pyJoin_pySplit_length_lt (s : String) (h : s.data.getLast? = some '\n') :
    (pyJoinNl (pySplitlines (uNewlines s))).length < (uNewlines s).length := by
  have hne : s.data ≠ [] := by
    intro hx; rw [hx, List.getLast?_nil] at h; cases h
  have hlast := uNewlinesL_getLast_nl s.data h
  have htne : uNewlinesL s.data ≠ [] := by
    intro hx; exact hne ((uNewlinesL_eq_nil_iff _).mp hx)
  have hlt : (pyJoinNlL (pySplitlinesL (uNewlinesL s.data))).length
      < (uNewlinesL s.data).length := by
    unfold pySplitlinesL
    rw [if_neg (by rw [List.isEmpty_eq_false.mpr htne]; exact Bool.false_ne_true)]
    have hx := pyJoinNlL_slAux_length [] (uNewlinesL s.data) ⟨'\n', hlast, by decide⟩
    simpa using hx
  show (pyJoinNlL (((pySplitlinesL (uNewlinesL s.data)).map String.mk).map String.data)).length
      < (uNewlinesL s.data).length
  rw [map_data_map_mk]
  exact hlt

/-- A string ending in `'\n'`, once read back, is changed by splitting into
lines and rejoining with `"\n"`. -/
theorem pyJoin_pySplit_ne (s : String) (h : s.data.getLast? = some '\n') :
    pyJoinNl (pySplitlines (uNewlines s)) ≠ uNewlines s := by
  intro heq
  have hlt := pyJoin_pySplit_length_lt s h
  rw [heq] at hlt
  exact lt_irrefl _ hlt

/-! ### Python `str.count` and `str.replace` (non-overlapping, left to right)

Both functions scan the string left to right; at a match the whole pattern is
skipped.  The scan consumes at least one character per step, so it is written
with a fuel argument that the wrappers set to `length + 1`, which is never
exhausted. -/

/-- Fuelled scan counting non-overlapping occurrences of a non-empty `pat`. -/
def countAux (pat : List Char) : Nat → List Char → Nat
  | _, [] => 0
  | 0, _ :: _ => 0
  | fuel + 1, c :: s =>
    if pat.isPrefixOf (c :: s) then 1 + countAux pat fuel ((c :: s).drop pat.length)
    else countAux pat fuel s

/-- Fuelled scan replacing non-overlapping occurrences of a non-empty `pat`
by `rep`. -/
def replAux (pat rep : List Char) : Nat → List Char → List Char
  | _, [] => []
  | 0, c :: s => c :: s
  | fuel + 1, c :: s =>
    if pat.isPrefixOf (c :: s) then rep ++ replAux pat rep fuel ((c :: s).drop pat.length)
    else c :: replAux pat rep fuel s

/-- Python `s.count(pat)`: non-overlapping occurrences; for the empty pattern
Python returns `len(s) + 1`. -/
def pyCountL (s pat : List Char) : Nat :=
  if pat.isEmpty then s.length + 1 else countAux pat (s.length + 1) s

/-- Python `s.replace(pat, rep)`: replaces all non-overlapping occurrences;
for the empty pattern Python inserts `rep` before every character and at the
end. -/
def pyReplaceL (s pat rep : List Char) : List Char :=
  if pat.isEmpty then rep ++ s.foldr (fun c acc => c :: (rep ++ acc)) []
  else replAux pat rep (s.length + 1) s

/-- Python `s.count(pat)` on `String`. -/
def pyCount (s pat : String) : Nat := pyCountL s.data pat.data

/-- Python `s.replace(pat, rep)` on `String`. -/
def pyReplace (s pat rep : String) : String :=
  String.mk (pyReplaceL s.data pat.data rep.data)

/-- If the scan finds no occurrence, the replacement scan is the identity. -/
theorem replAux_of_countAux_zero (pat rep : List Char) :
    ∀ fuel s, countAux pat fuel s = 0 → replAux pat rep fuel s = s := by
  intro fuel
  induction fuel with
  | zero =>
    intro s h
    match s with
    | [] => rfl
    | c :: s2 => rfl
  | succ f ih =>
    intro s h
    match s with
    | [] => rfl
    | c :: s2 =>
      by_cases hp : pat.isPrefixOf (c :: s2) = true
      · rw [countAux.eq_3, if_pos hp] at h
        omega
      · rw [countAux.eq_3, if_neg hp] at h
        rw [replAux.eq_3, if_neg hp, ih s2 h]

/-- Replacing a pattern that does not occur leaves the string unchanged. -/
theorem pyReplace_of_count_zero (s pat rep : String) (h : pyCount s pat = 0) :
    pyReplace s pat rep = s := by
  unfold pyCount pyCountL at h
  unfold pyReplace pyReplaceL
  by_cases hp : pat.data.isEmpty = true
  · rw [if_pos hp] at h
    omega
  · rw [if_neg hp] at h
    rw [if_neg hp, replAux_of_countAux_zero pat.data rep.data _ s.data h]

/-! ### The `edit_file` line-operation engine

A line operation arrives as a dict `{"operation": ..., "line": ...,
"start_line": ..., "end_line": ..., "content": ...}`.  `LineOp` models the
dicts conforming to the documented data model: insert/replace carry `line`
(and the `operation` string lowercases to `"insert"` / `"replace"`), delete
carries `start_line` and optionally `end_line`, and any other operation kind
is `unknownOp` (carrying neither `line` nor `start_line`, so its sort key is
the `op.get(...)` default `0`). -/

/-- Content of an insert operation: a single string or a list of strings. -/
inductive InsContent where
  | one (s : String)
  | many (ls : List String)
  deriving DecidableEq

/-- A line operation of `edit_file`. -/
inductive LineOp where
  | insert (line : Int) (content : InsContent)
  | replace (line : Int) (content : String)
  | delete (startLine : Int) (endLine : Option Int)
  | unknownOp (operation : String)
  deriving DecidableEq

/-- The per-operation outcome dict appended to `line_operations_performed`;
keys that a given record does not carry are `none`. -/
structure OpResult where
  operation : String
  line : Option Int := none
  start_line : Option Int := none
  end_line : Option Int := none
  success : Bool := false
  error : Option String := none
  old_content : Option String := none
  deleted_content : Option (List String) := none
  lines_deleted : Option Nat := none
  deriving DecidableEq

/-- Python `list.insert(i, x)` for `0 ≤ i` (an index past the end appends,
which `List.take` / `List.drop` give for free). -/
def pyInsertAt (l : List String) (i : Nat) (x : String) : List String :=
  l.take i ++ x :: l.drop i

/-- The source's `for i, line in enumerate(new_content): lines.insert(idx + i, line)`. -/
def insertLoop : List String → Nat → List String → List String
  | l, _, [] => l
  | l, idx, x :: xs => insertLoop (pyInsertAt l idx x) (idx + 1) xs

/-- One line operation applied to the current line array, returning the new
array and the outcome record (`server.py`, the body of the `for op in
sorted_ops` loop). -/
def applyOp (lines : List String) : LineOp → List String × OpResult
  | .insert lineNum c =>
    let idx : Nat := (min (max 0 (lineNum - 1)) (lines.length : Int)).toNat
    let newLines := match c with
      | .one s => pyInsertAt lines idx s
      | .many ls => insertLoop lines idx ls
    (newLines, { operation := "insert", line := some lineNum, success := true })
  | .replace lineNum newContent =>
    if 0 ≤ lineNum - 1 ∧ lineNum - 1 < (lines.length : Int) then
      let idx := (lineNum - 1).toNat
      (lines.set idx newContent,
       { operation := "replace", line := some lineNum, success := true,
         old_content := some (lines.getD idx "") })
    else
      (lines, { operation := "replace", line := some lineNum, success := false,
                error := some s!"Line {lineNum} is out of range (1-{lines.length})" })
  | .delete startLine endLineOpt =>
    let endLine := endLineOpt.getD startLine
    let startIdx : Nat := (max 0 (startLine - 1)).toNat
    let endIdxI : Int := min (lines.length : Int) endLine
    if (startIdx : Int) < endIdxI then
      let endIdx := endIdxI.toNat
      (lines.take startIdx ++ lines.drop endIdx,
       { operation := "delete", start_line := some startLine, end_line := some endLine,
         lines_deleted := some (endIdx - startIdx), success := true,
         deleted_content := some ((lines.take endIdx).drop startIdx) })
    else
      (lines, { operation := "delete", start_line := some startLine, end_line := some endLine,
                success := false,
                error := some s!"Invalid line range: {startLine}-{endLine}" })
  | .unknownOp name =>
    (lines, { operation := name.toLower, success := false,
              error := some s!"Unknown operation type: {name.toLower}" })

/-- The sort key of the source's `sorted(...)` call: `op.get("line", 0) if
"line" in op else op.get("start_line", 0)`. -/
def sortKey : LineOp → Int
  | .insert l _ => l
  | .replace l _ => l
  | .delete s _ => s
  | .unknownOp _ => 0

/-- Descending order on sort keys: `a` comes no later than `b`. -/
def opGE (a b : LineOp) : Prop := sortKey b ≤ sortKey a

instance : DecidableRel opGE := fun a b => inferInstanceAs (Decidable (sortKey b ≤ sortKey a))

instance : IsTotal LineOp opGE := ⟨fun a b => le_total (sortKey b) (sortKey a)⟩

instance : IsTrans LineOp opGE := ⟨fun _ _ _ hab hbc => le_trans hbc hab⟩

/-- Python's stable `sorted(line_operations, key=lambda op: -(...))`,
modelled as a stable insertion sort by descending sort key. -/
def sortOps (ops : List LineOp) : List LineOp := List.insertionSort opGE ops

/-- Fold of `applyOp` over an (already sorted) operation list, collecting the
outcome records in processing order. -/
def runOps : List String → List LineOp → List String × List OpResult
  | lines, [] => (lines, [])
  | lines, op :: rest =>
    let r := applyOp lines op
    let rest2 := runOps r.1 rest
    (rest2.1, r.2 :: rest2.2)

/-- The line-operation engine: sort the batch by descending target line, then
apply the operations one at a time against the shared line array. -/
def applyLineOps (lines : List String) (ops : List LineOp) : List String × List OpResult :=
  runOps lines (sortOps ops)

/-! ### The `edit_file` string-replacement stage and full pipeline -/

/-- The `for old, new in replacements.items()` loop: count occurrences; if
any, replace all of them and record the count. -/
def applyReplacements : String → List (String × String) → String × List (String × Nat)
  | c, [] => (c, [])
  | c, (old, new) :: rest =>
    let n := pyCount c old
    if 0 < n then
      let out := applyReplacements (pyReplace c old new) rest
      (out.1, (old, n) :: out.2)
    else applyReplacements c rest

/-- Outcome of the pure `edit_file` computation on file content. -/
structure EditCore where
  content : String
  counts : List (String × Nat)
  lineOps : List OpResult
  deriving DecidableEq

/-- The pure `edit_file` pipeline on already-read content: string
replacements first, then (only when the batch is non-empty, mirroring `if
line_operations:`) split into lines, run the sorted batch, and rejoin with
`"\n"`. -/
def editApply (content : String) (reps : List (String × String)) (ops : List LineOp) :
    EditCore :=
  let r := applyReplacements content reps
  if ops.isEmpty then { content := r.1, counts := r.2, lineOps := [] }
  else
    let lines := pySplitlines r.1
    let done := applyLineOps lines ops
    { content := pyJoinNl done.1, counts := r.2, lineOps := done.2 }

/-! ### The filesystem model and the handlers over it

`FS` maps a path to the raw byte content of the file, if it exists.  Reads in
text mode apply `uNewlines` (universal-newline translation); writes on Linux
write `'\n'` unchanged. -/

/-- A filesystem state: path ↦ raw file content. -/
def FS : Type := String → Option String

/-- Result dict of `show_file`; keys absent from the error dicts are `none`. -/
structure ShowResult where
  success : Bool
  error : Option String := none
  content : String := ""
  lines_shown : Nat := 0
  total_lines : Nat := 0
  start_line : Option Int := none
  end_line : Option Nat := none
  deriving DecidableEq

/-- Python slice `l[a:b]` for `0 ≤ a` and an arbitrary (possibly negative)
upper bound `b`. -/
def pySliceFrom (l : List String) (a : Nat) (b : Int) : List String :=
  let bn : Nat := if b < 0 then ((l.length : Int) + b).toNat else b.toNat
  (l.take bn).drop a

/-- The `show_file` logic on already-read content (`server.py` lines
109-147): clamp `start_line` to at least 1, fail when it is beyond the file
length, otherwise slice out the requested window and rejoin it. -/
def show_file_core (content : String) (startLine : Int) (numLines : Option Int) :
    ShowResult :=
  let start := max 1 startLine
  let allLines := pySplitlines content
  let total := allLines.length
  if (total : Int) < start then
    { success := false,
      error := some s!"Start line {start} is beyond the file length ({total} lines)",
      total_lines := total }
  else
    let startIdx : Nat := (start - 1).toNat
    let endIdx : Int := match numLines with
      | none => (total : Int)
      | some n => min ((startIdx : Int) + n) (total : Int)
    let selected := pySliceFrom allLines startIdx endIdx
    { success := true, content := pyJoinNl selected, lines_shown := selected.length,
      total_lines := total, start_line := some start,
      end_line := some (startIdx + selected.length) }

/-- `show_file` over the filesystem model. -/
def show_file_fs (fs : FS) (p : String) (startLine : Int) (numLines : Option Int) :
    ShowResult :=
  match fs p with
  | none => { success := false, error := some s!"File {p} does not exist" }
  | some raw => show_file_core (uNewlines raw) startLine numLines

/-- Python `line.rstrip(chr(10))`: drop all trailing `'\n'` characters. -/
def rstripNl (s : String) : String :=
  String.mk (s.data.reverse.dropWhile (fun c => c = '\n')).reverse

/-- Text-file iteration (`for i, line in enumerate(f, 1)`): split after every
`'\n'`, keeping it; a last line without a trailing newline is kept, an empty
tail is not a line. -/
def fileLinesAux : List Char → List Char → List (List Char)
  | cur, [] => if cur.isEmpty then [] else [cur]
  | cur, c :: rest =>
    if c = '\n' then (cur ++ ['\n']) :: fileLinesAux [] rest
    else fileLinesAux (cur ++ [c]) rest

/-- Text-file iteration on `String`. -/
def fileIterLines (s : String) : List String :=
  (fileLinesAux [] s.data).map String.mk

/-- The `search_in_file` scan loop (`server.py` lines 198-207): record each
matching line (1-based index, content stripped of its newline) and stop once
`max_matches` is positive and reached. -/
def searchLoop (m : String → Bool) (maxMatches : Int) :
    Nat → Nat → List String → List (Nat × String)
  | _, _, [] => []
  | i, cnt, l :: rest =>
    if m l then
      if 0 < maxMatches ∧ maxMatches ≤ ((cnt + 1 : Nat) : Int) then [(i, rstripNl l)]
      else (i, rstripNl l) :: searchLoop m maxMatches (i + 1) (cnt + 1) rest
    else searchLoop m maxMatches (i + 1) cnt rest

/-- Result dict of `search_in_file`; the error dicts carry no `truncated`
key.  The field `found` models the dict key `"matches"` (renamed because
`matches` is reserved). -/
structure SearchResult where
  success : Bool
  error : Option String := none
  found : List (Nat × String) := []
  match_count : Nat := 0
  truncated : Option Bool := none
  deriving DecidableEq

/-- The `search_in_file` logic on already-read content.  The compiled regex
is abstracted as the line predicate `m` (the regex engine is an external
collaborator). -/
def searchCore (m : String → Bool) (maxMatches : Int) (content : String) : SearchResult :=
  let ms := searchLoop m maxMatches 1 0 (fileIterLines content)
  { success := true, found := ms, match_count := ms.length,
    truncated := some (decide (0 < maxMatches) && decide (maxMatches ≤ (ms.length : Int))) }

/-- `search_in_file` over the filesystem model. -/
def search_in_file_fs (fs : FS) (p : String) (m : String → Bool) (maxMatches : Int) :
    SearchResult :=
  match fs p with
  | none => { success := false, error := some s!"File {p} does not exist" }
  | some raw => searchCore m maxMatches (uNewlines raw)

/-- Result dict of `write_file`. -/
structure WriteResult where
  success : Bool
  error : Option String := none
  deriving DecidableEq

/-- `write_file` over the filesystem model: `"w"` overwrites, `"a"` appends
(creating a missing file); any other mode raises `ValueError`, which the
handler converts into an error result. -/
def write_file_fs (fs : FS) (p : String) (content : String) (mode : String) :
    WriteResult × FS :=
  if mode = "w" then ({ success := true }, fun q => if q = p then some content else fs q)
  else if mode = "a" then
    ({ success := true }, fun q => if q = p then some ((fs p).getD "" ++ content) else fs q)
  else ({ success := false, error := some s!"invalid mode: {mode}" }, fs)

/-- Result dict of `edit_file`; the error dicts carry only `success`,
`error`, `replacements_made` and `line_operations_performed`. -/
structure EditResult where
  success : Bool
  error : Option String := none
  original_size : Option Nat := none
  new_size : Option Nat := none
  changed : Option Bool := none
  replacements_made : List (String × Nat) := []
  line_operations_performed : List OpResult := []
  deriving DecidableEq

/-- The successful path of `edit_file`: run the pipeline on the content as
read, write the final content back, and report sizes, the change flag and
the per-stage outcomes. -/
def editRun (fs : FS) (p : String) (original : String) (reps : List (String × String))
    (ops : List LineOp) : EditResult × FS :=
  let core := editApply original reps ops
  ({ success := true, original_size := some original.length,
     new_size := some core.content.length,
     changed := some (original != core.content),
     replacements_made := core.counts,
     line_operations_performed := core.lineOps },
   fun q => if q = p then some core.content else fs q)

/-- `edit_file` over the filesystem model: a missing file is an error unless
`create_if_missing` is set, in which case it is initialized empty before
editing proceeds. -/
def edit_file_fs (fs : FS) (p : String) (reps : List (String × String)) (ops : List LineOp)
    (createIfMissing : Bool) : EditResult × FS :=
  match fs p with
  | some raw => editRun fs p (uNewlines raw) reps ops
  | none =>
    if createIfMissing then
      let fs1 : FS := fun q => if q = p then some "" else fs q
      editRun fs1 p "" reps ops
    else
      ({ success := false, error := some s!"File {p} does not exist" }, fs)

/-! ### The exception model of the handlers

Each handler is a function into `Except PyErr` whose `Except.error` values
are exactly the Python exceptions that escape the handler.  The bodies mirror
the source's `try` / `except` structure: a `try` block whose every failure is
caught appears as a total `match` on the oracle's result, while a primitive
called outside any `except` (or inside a `try` that has only `finally`)
propagates its error. -/

/-- A Python exception as seen by the handlers: `subprocess.TimeoutExpired`
is distinguished because `execute_shell_command` catches it separately. -/
inductive PyErr where
  | timeoutExpired
  | exn (msg : String)
  deriving DecidableEq

/-- `str(e)` for a modelled exception. -/
def pyStr : PyErr → String
  | .timeoutExpired => "TimeoutExpired"
  | .exn msg => msg

/-- The result of `subprocess.run`. -/
structure RunOut where
  stdout : String
  stderr : String
  returncode : Int
  deriving DecidableEq

/-- An oracle for every platform primitive the handlers call.  Each call site
passes its arguments; an `Except.error` models the primitive raising. -/
structure World where
  pathExists : String → Bool
  readText : String → Except PyErr String
  writeText : String → String → Except PyErr Unit
  mkdirParents : String → Except PyErr Unit
  runProc : List String → Option Int → Option String → Except PyErr RunOut
  compileRegex : String → Bool → Except PyErr (String → Bool)
  pdfExtract : String → Except PyErr String
  tmpPdfPath : String

/-- Result dict of `execute_shell_command`. -/
structure ShellResult where
  stdout : String
  stderr : String
  exit_code : Int
  command : String
  success : Bool
  deriving DecidableEq

/-- `execute_shell_command` (`server.py` lines 34-72): the whole body is a
`try` with `except TimeoutExpired` and `except Exception` arms, so every
primitive failure becomes a structured result. -/
def execute_shell_command_w (w : World) (command : List String) (timeout : Int)
    (workingDir : Option String) : Except PyErr ShellResult :=
  Except.ok <|
    match w.runProc command (some timeout) workingDir with
    | .ok r =>
      { stdout := r.stdout, stderr := r.stderr, exit_code := r.returncode,
        command := String.intercalate " " command, success := r.returncode == 0 }
    | .error .timeoutExpired =>
      { stdout := "", stderr := s!"Command timed out after {timeout} seconds",
        exit_code := -1, command := String.intercalate " " command, success := false }
    | .error (.exn msg) =>
      { stdout := "", stderr := s!"Error executing command: {msg}",
        exit_code := -1, command := String.intercalate " " command, success := false }

/-- `show_file` over the oracle (`server.py` lines 94-155): the existence
check is outside the `try`, everything else is caught. -/
def show_file_w (w : World) (p : String) (startLine : Int) (numLines : Option Int) :
    Except PyErr ShowResult :=
  Except.ok <|
    if w.pathExists p = false then
      { success := false, error := some s!"File {p} does not exist" }
    else
      match w.readText p with
      | .ok c => show_file_core c startLine numLines
      | .error e =>
        { success := false, error := some s!"Error reading file: {pyStr e}" }

/-- `search_in_file` over the oracle (`server.py` lines 177-228): regex
compilation errors and all other failures are caught by the two `except`
arms. -/
def search_in_file_w (w : World) (p : String) (pattern : String) (caseSensitive : Bool)
    (maxMatches : Int) : Except PyErr SearchResult :=
  Except.ok <|
    if w.pathExists p = false then
      { success := false, error := some s!"File {p} does not exist" }
    else
      match w.compileRegex pattern caseSensitive with
      | .error e =>
        { success := false, error := some s!"Invalid regular expression: {pyStr e}" }
      | .ok m =>
        match w.readText p with
        | .error e =>
          { success := false, error := some s!"Error searching file: {pyStr e}" }
        | .ok content => searchCore m maxMatches content

/-- `write_file` over the oracle (`server.py` lines 426-433): the whole body
is caught. -/
def write_file_w (w : World) (p : String) (content : String) (mode : String) :
    Except PyErr WriteResult :=
  Except.ok <|
    if mode = "w" ∨ mode = "a" then
      match w.writeText p content with
      | .ok _ => { success := true }
      | .error e => { success := false, error := some (pyStr e) }
    else { success := false, error := some s!"invalid mode: {mode}" }

/-- `edit_file` over the oracle (`server.py` lines 250-407).  The
create-if-missing setup (`mkdir` and the initial empty write) happens BEFORE
the `try` block, so a failure there propagates; everything after is caught. -/
def edit_file_w (w : World) (p : String) (reps : List (String × String))
    (ops : List LineOp) (createIfMissing : Bool) : Except PyErr EditResult :=
  if w.pathExists p = false ∧ createIfMissing = false then
    Except.ok { success := false, error := some s!"File {p} does not exist" }
  else
    let setup : Except PyErr Unit :=
      if w.pathExists p = false then
        match w.mkdirParents p with
        | .error e => Except.error e
        | .ok _ => w.writeText p ""
      else Except.ok ()
    match setup with
    | .error e => Except.error e
    | .ok _ =>
      Except.ok <|
        match w.readText p with
        | .error e =>
          { success := false, error := some s!"Error editing file: {pyStr e}" }
        | .ok original =>
          let core := editApply original reps ops
          match w.writeText p core.content with
          | .error e =>
            { success := false, error := some s!"Error editing file: {pyStr e}" }
          | .ok _ =>
            { success := true, original_size := some original.length,
              new_size := some core.content.length,
              changed := some (original != core.content),
              replacements_made := core.counts,
              line_operations_performed := core.lineOps }

/-- `fetch_page` (`server.py` lines 448-486): the body is a `try` /
`finally` with NO `except` arm (the `finally` only unlinks the temp file,
inside its own exception-swallowing `try`).  Only a nonzero browser exit code
is converted into an error-prefixed string; an exception raised by the
subprocess launch or by the PDF text extraction propagates to the caller. -/
def fetch_page_w (w : World) (url : String) : Except PyErr String :=
  match w.runProc ["chromium", "--headless", "--disable-gpu",
                   s!"--print-to-pdf={w.tmpPdfPath}", url] none none with
  | .error e => Except.error e
  | .ok r =>
    if r.returncode != 0 then Except.ok s!"Error fetching page: {r.stderr}"
    else
      match w.pdfExtract w.tmpPdfPath with
      | .error e => Except.error e
      | .ok text => Except.ok text

/-! ### Reference definitions written from the specification's words -/

/-- Specification-side reference (spec §4.1 step 1 / §8): plain sequential
substring replacement, each pair applied in caller-supplied order to the
current content. -/
def seqReplace (content : String) (reps : List (String × String)) : String :=
  reps.foldl (fun c q => pyReplace c q.1 q.2) content

/-- Specification-side reference (spec §4.1 step 1): the recorded counts; for
each pair, the number of non-overlapping occurrences counted before its
replacement, with zero-occurrence entries omitted. -/
def seqCounts : String → List (String × String) → List (String × Nat)
  | _, [] => []
  | c, (old, new) :: rest =>
    let n := pyCount c old
    let tailCounts := seqCounts (pyReplace c old new) rest
    if n = 0 then tailCounts else (old, n) :: tailCounts

/-- Specification-side reference (spec §6): all matching lines with their
1-based line numbers, with no cap. -/
def allMatches (m : String → Bool) : Nat → List String → List (Nat × String)
  | _, [] => []
  | i, l :: rest =>
    if m l then (i, rstripNl l) :: allMatches m (i + 1) rest
    else allMatches m (i + 1) rest

/-! ### Helper lemmas -/

/-- The list inserted by an insert operation. -/
def insContentList : InsContent → List String
  | .one s => [s]
  | .many ls => ls

/-- The enumerate-insert loop places the whole list at the starting index,
preserving its order. -/
theorem insertLoop_eq (xs : List String) : ∀ (l : List String) (idx : Nat),
    idx ≤ l.length → insertLoop l idx xs = l.take idx ++ xs ++ l.drop idx := by
  induction xs with
  | nil =>
    intro l idx h
    simp [insertLoop]
  | cons x xs ih =>
    intro l idx h
    have hlen : (pyInsertAt l idx x).length = l.length + 1 := by
      unfold pyInsertAt
      simp only [List.length_append, List.length_take, List.length_cons, List.length_drop]
      omega
    rw [insertLoop, ih (pyInsertAt l idx x) (idx + 1) (by omega)]
    have htk : (pyInsertAt l idx x).take (idx + 1) = l.take idx ++ [x] := by
      unfold pyInsertAt
      rw [List.take_append_eq_append_take,
          List.take_of_length_le (by simp only [List.length_take]; omega)]
      have h1 : idx + 1 - (l.take idx).length = 1 := by simp [List.length_take]; omega
      rw [h1]
      rfl
    have hdr : (pyInsertAt l idx x).drop (idx + 1) = l.drop idx := by
      unfold pyInsertAt
      rw [List.drop_append_eq_append_drop,
          List.drop_eq_nil_of_le (by simp only [List.length_take]; omega)]
      have h1 : idx + 1 - (l.take idx).length = 1 := by simp [List.length_take]; omega
      rw [h1]
      rfl
    rw [htk, hdr]
    simp

/-- A line operation whose outcome record reports failure leaves the line
array unchanged. -/
theorem applyOp_fail_frame (lines : List String) (op : LineOp)
    (h : (applyOp lines op).2.success = false) : (applyOp lines op).1 = lines := by
  cases op with
  | insert ln c => simp [applyOp] at h
  | replace ln newContent =>
    by_cases hc : 0 ≤ ln - 1 ∧ ln - 1 < (lines.length : Int)
    · have hs : (applyOp lines (LineOp.replace ln newContent)).2.success = true := by
        simp only [applyOp]
        rw [if_pos hc]
      rw [hs] at h
      cases h
    · simp only [applyOp]
      rw [if_neg hc]
  | delete startLine endLineOpt =>
    by_cases hc : (((max 0 (startLine - 1)).toNat : Int)
        < min (lines.length : Int) (endLineOpt.getD startLine))
    · have hs : (applyOp lines (LineOp.delete startLine endLineOpt)).2.success = true := by
        simp only [applyOp]
        rw [if_pos hc]
      rw [hs] at h
      cases h
    · simp only [applyOp]
      rw [if_neg hc]
  | unknownOp name => simp [applyOp]

/-- Every operation contributes exactly one outcome record. -/
theorem runOps_length (ops : List LineOp) : ∀ lines,
    (runOps lines ops).2.length = ops.length := by
  induction ops with
  | nil => intro lines; rfl
  | cons op rest ih => intro lines; simp [runOps, ih]

/-- If every recorded outcome is a failure, the line array is unchanged. -/
theorem runOps_all_fail (ops : List LineOp) : ∀ lines,
    (∀ r ∈ (runOps lines ops).2, r.success = false) → (runOps lines ops).1 = lines := by
  induction ops with
  | nil => intro lines _; rfl
  | cons op rest ih =>
    intro lines h
    have hmem : (runOps lines (op :: rest)).2
        = (applyOp lines op).2 :: (runOps (applyOp lines op).1 rest).2 := rfl
    have h1 : (applyOp lines op).2.success = false := by
      apply h
      rw [hmem]
      exact List.mem_cons_self _ _
    have h2 : ∀ r ∈ (runOps (applyOp lines op).1 rest).2, r.success = false := by
      intro r hr
      apply h
      rw [hmem]
      exact List.mem_cons_of_mem _ hr
    calc (runOps lines (op :: rest)).1
        = (runOps (applyOp lines op).1 rest).1 := rfl
      _ = (applyOp lines op).1 := ih _ h2
      _ = lines := applyOp_fail_frame lines op h1

/-- The replacement loop of the source equals the specification's sequential
substring replacement with its recorded counts. -/
theorem applyReplacements_eq (reps : List (String × String)) : ∀ content,
    applyReplacements content reps = (seqReplace content reps, seqCounts content reps) := by
  induction reps with
  | nil => intro c; rfl
  | cons q rest ih =>
    intro c
    obtain ⟨old, new⟩ := q
    by_cases h : 0 < pyCount c old
    · have hne : pyCount c old ≠ 0 := by omega
      simp only [applyReplacements, seqReplace, seqCounts, List.foldl_cons, if_pos h,
        if_neg hne, ih]
    · have h0 : pyCount c old = 0 := by omega
      have hid : pyReplace c old new = c := pyReplace_of_count_zero _ _ _ h0
      simp only [applyReplacements, seqReplace, seqCounts, List.foldl_cons, if_neg h,
        if_pos h0, hid, ih]

/-- With a positive cap, the scan loop never returns more matches than the
cap allows. -/
theorem searchLoop_length_le (m : String → Bool) (maxM : Int) :
    ∀ (ls : List String) (i cnt : Nat), 0 < maxM → (cnt : Int) < maxM →
      ((searchLoop m maxM i cnt ls).length : Int) + cnt ≤ maxM := by
  intro ls
  induction ls with
  | nil =>
    intro i cnt hpos h
    simp [searchLoop]
    omega
  | cons l rest ih =>
    intro i cnt hpos h
    simp only [searchLoop]
    by_cases hm : m l = true
    · rw [if_pos hm]
      by_cases hstop : 0 < maxM ∧ maxM ≤ ((cnt + 1 : Nat) : Int)
      · rw [if_pos hstop]
        simp
        omega
      · rw [if_neg hstop]
        have hcnt : ((cnt + 1 : Nat) : Int) < maxM := by
          rcases not_and_or.mp hstop with h1 | h2
          · exact absurd hpos h1
          · push_cast at h2 ⊢
            omega
        have hrec := ih (i + 1) (cnt + 1) hpos hcnt
        simp only [List.length_cons]
        push_cast at hrec ⊢
        omega
    · rw [if_neg hm]
      have hrec := ih (i + 1) cnt hpos h
      exact hrec

/-- With a non-positive cap, the scan loop returns every matching line. -/
theorem searchLoop_nonpos (m : String → Bool) (maxM : Int) (hneg : maxM ≤ 0) :
    ∀ (ls : List String) (i cnt : Nat), searchLoop m maxM i cnt ls = allMatches m i ls := by
  intro ls
  induction ls with
  | nil => intro i cnt; rfl
  | cons l rest ih =>
    intro i cnt
    simp only [searchLoop, allMatches]
    by_cases hm : m l = true
    · rw [if_pos hm, if_pos hm,
          if_neg (by intro hc; exact absurd hc.1 (by omega)), ih (i + 1) (cnt + 1)]
    · rw [if_neg hm, if_neg hm]
      exact ih (i + 1) cnt

/-- Universal-newline translation never lengthens a string. -/
theorem uNewlinesL_length_le (s : List Char) : (uNewlinesL s).length ≤ s.length := by
  induction s using uNewlinesL.induct with
  | case1 => rw [uNewlinesL.eq_1]
  | case2 rest ih => rw [uNewlinesL.eq_2]; simp only [List.length_cons]; omega
  | case3 rest h ih => rw [uNewlinesL.eq_3 _ h]; simp only [List.length_cons]; omega
  | case4 c rest h1 h2 ih => rw [uNewlinesL.eq_4 _ _ h1 h2]; simp only [List.length_cons]; omega

/-- `splitlines` after the text-mode read sees the same lines as `splitlines`
on the raw content. -/
theorem pySplitlines_uNewlines (s : String) :
    pySplitlines (uNewlines s) = pySplitlines s := by
  unfold pySplitlines uNewlines
  exact congrArg (List.map String.mk) (pySplitlinesL_uNewlinesL s.data)

theorem string_data_ne_nil (s : String) (h : s ≠ "") : s.data ≠ [] := by
  intro hd
  apply h
  cases s with
  | mk d =>
    have hd2 : d = [] := hd
    rw [hd2]

/-! ### The claims -/

/-- C1: `edit_file` applies a batch of line operations after sorting it by
descending target line number (`line` for insert/replace, `start_line` for
delete; `sortKey`), and the result equals applying the operations one at a
time in that descending order; in particular, on `["a","b","c"]` the batch
`[Insert(line=2,"X"), Insert(line=1,"Y")]` yields
`["Y","a","X","b","c"]`. -/
theorem c1_descending_batch :
    (∀ (lines : List String) (ops : List LineOp),
      applyLineOps lines ops = runOps lines (sortOps ops) ∧
      List.Sorted opGE (sortOps ops) ∧
      List.Perm (sortOps ops) ops) ∧
    (applyLineOps ["a", "b", "c"]
        [LineOp.insert 2 (InsContent.one "X"), LineOp.insert 1 (InsContent.one "Y")]).1
      = ["Y", "a", "X", "b", "c"] := by
  constructor
  · intro lines ops
    exact ⟨rfl, List.sorted_insertionSort opGE ops, List.perm_insertionSort opGE ops⟩
  · decide

/-- C4: an Insert clamps its target index to `[0, currentLength]` (0-based
`line - 1`, floored at 0, capped at the array length), splices its content at
the clamped index — each element of a sequence in order, or the single string
alone — and always records a success outcome. -/
theorem c4_insert_clamped_splice (lines : List String) (ln : Int) (c : InsContent) :
    applyOp lines (LineOp.insert ln c)
      = (lines.take ((min (max 0 (ln - 1)) (lines.length : Int)).toNat)
          ++ insContentList c
          ++ lines.drop ((min (max 0 (ln - 1)) (lines.length : Int)).toNat),
         { operation := "insert", line := some ln, success := true }) := by
  have hidx : ((min (max 0 (ln - 1)) (lines.length : Int)).toNat) ≤ lines.length := by
    rw [Int.toNat_le]
    exact min_le_right _ _
  cases c with
  | one s =>
    simp only [applyOp, insContentList, pyInsertAt]
    rw [List.append_assoc, List.singleton_append]
  | many ls =>
    simp only [applyOp, insContentList]
    rw [insertLoop_eq ls lines _ hidx]

/-- C3: a Replace whose line is outside `1..currentLength` and a Delete whose
clamped range satisfies `startIdx >= endIdx` each record a failure outcome
(the Replace message naming the valid range `1-currentLength`) and leave the
line array completely unchanged. -/
theorem c3_invalid_ops_no_mutation (lines : List String) (ln : Int) (newContent : String)
    (startLine : Int) (endLineOpt : Option Int)
    (hrep : ln - 1 < 0 ∨ (lines.length : Int) ≤ ln - 1)
    (hdel : min (lines.length : Int) (endLineOpt.getD startLine)
      ≤ ((max 0 (startLine - 1)).toNat : Int)) :
    applyOp lines (LineOp.replace ln newContent)
      = (lines,
         { operation := "replace", line := some ln, success := false,
           error := some s!"Line {ln} is out of range (1-{lines.length})" }) ∧
    applyOp lines (LineOp.delete startLine endLineOpt)
      = (lines,
         { operation := "delete", start_line := some startLine,
           end_line := some (endLineOpt.getD startLine), success := false,
           error := some s!"Invalid line range: {startLine}-{endLineOpt.getD startLine}" }) := by
  constructor
  · have hc : ¬(0 ≤ ln - 1 ∧ ln - 1 < (lines.length : Int)) := by
      rcases hrep with h | h
      · intro hx; omega
      · intro hx; omega
    simp only [applyOp]
    rw [if_neg hc]
  · have hc : ¬(((max 0 (startLine - 1)).toNat : Int)
        < min (lines.length : Int) (endLineOpt.getD startLine)) := not_lt.mpr hdel
    simp only [applyOp]
    rw [if_neg hc]

/-- Witness for C3: `Replace(line=10)` on a 3-line array fails with the range
`1-3` in the error, and `Delete(startLine=5, endLine=3)` fails, both without
mutation. -/
theorem c3_witness :
    applyOp ["a", "b", "c"] (LineOp.replace 10 "z")
      = (["a", "b", "c"],
         { operation := "replace", line := some 10, success := false,
           error := some "Line 10 is out of range (1-3)" }) ∧
    applyOp ["a", "b", "c"] (LineOp.delete 5 (some 3))
      = (["a", "b", "c"],
         { operation := "delete", start_line := some 5, end_line := some 3,
           success := false, error := some "Invalid line range: 5-3" }) := by
  have h := c3_invalid_ops_no_mutation ["a", "b", "c"] 10 "z" 5 (some 3)
    (Or.inr (by decide)) (by decide)
  refine ⟨?_, ?_⟩
  · rw [h.1]
    decide
  · rw [h.2]
    decide

/-- C5: a failing operation does not abort the batch: every operation of the
batch yields exactly one outcome record, a failing operation leaves the line
array unchanged (so the remaining operations still apply to it), and
`edit_file` still writes the final content and reports success. -/
theorem c5_batch_survives_failures (lines : List String) (ops : List LineOp) (op : LineOp)
    (fs : FS) (p content : String) (reps : List (String × String)) (cim : Bool)
    (hfs : fs p = some content)
    (hfail : (applyOp lines op).2.success = false) :
    (applyLineOps lines ops).2.length = ops.length ∧
    (applyOp lines op).1 = lines ∧
    (edit_file_fs fs p reps ops cim).1.success = true ∧
    (edit_file_fs fs p reps ops cim).2 p
      = some (editApply (uNewlines content) reps ops).content := by
  refine ⟨?_, applyOp_fail_frame lines op hfail, ?_, ?_⟩
  · rw [applyLineOps, runOps_length]
    exact (List.perm_insertionSort opGE ops).length_eq
  · simp only [edit_file_fs, hfs, editRun]
  · simp only [edit_file_fs, hfs, editRun]
    simp

/-- Witness for C5: with a batch holding an out-of-range replace and an
insert, both outcomes are recorded, the failing replace mutates nothing, and
the file is written with success. -/
theorem c5_witness :
    (applyLineOps ["a"] [LineOp.replace 10 "z", LineOp.insert 1 (InsContent.one "q")]).2.length
      = 2 ∧
    (applyOp ["a"] (LineOp.replace 10 "z")).1 = ["a"] ∧
    (edit_file_fs (fun q => if q = "f" then some "a" else none) "f" []
        [LineOp.replace 10 "z", LineOp.insert 1 (InsContent.one "q")] false).1.success = true ∧
    (edit_file_fs (fun q => if q = "f" then some "a" else none) "f" []
        [LineOp.replace 10 "z", LineOp.insert 1 (InsContent.one "q")] false).2 "f"
      = some (editApply (uNewlines "a") []
          [LineOp.replace 10 "z", LineOp.insert 1 (InsContent.one "q")]).content :=
  c5_batch_survives_failures ["a"]
    [LineOp.replace 10 "z", LineOp.insert 1 (InsContent.one "q")]
    (LineOp.replace 10 "z") (fun q => if q = "f" then some "a" else none) "f" "a" [] false
    (by decide) (by decide)

/-- C2: with only string replacements (no line operations), `edit_file`
performs exactly plain sequential substring replacement on the content as
read — each (old, new) pair, in caller-supplied order, replaces all
non-overlapping occurrences of `old` before the next pair is processed — and
`replacements_made` maps each `old` with at least one occurrence to the
number of non-overlapping occurrences counted before its replacement,
omitting every `old` with zero occurrences. -/
theorem c2_sequential_replacement (fs : FS) (p content : String)
    (reps : List (String × String)) (hfs : fs p = some content) :
    (edit_file_fs fs p reps [] false).1.success = true ∧
    (edit_file_fs fs p reps [] false).1.replacements_made
      = seqCounts (uNewlines content) reps ∧
    (edit_file_fs fs p reps [] false).1.line_operations_performed = [] ∧
    (edit_file_fs fs p reps [] false).2 p = some (seqReplace (uNewlines content) reps) := by
  have hcore : editApply (uNewlines content) reps []
      = { content := seqReplace (uNewlines content) reps,
          counts := seqCounts (uNewlines content) reps, lineOps := [] } := by
    unfold editApply
    rw [applyReplacements_eq]
    rfl
  refine ⟨?_, ?_, ?_, ?_⟩ <;> simp only [edit_file_fs, hfs, editRun, hcore] <;> simp

/-- Witness for C2: replacing `"ab"` by `"c"` in `"abab"` records the count
2 and writes `"cc"`. -/
theorem c2_witness :
    (edit_file_fs (fun q => if q = "f" then some "abab" else none) "f"
        [("ab", "c")] [] false).1.replacements_made = [("ab", 2)] ∧
    (edit_file_fs (fun q => if q = "f" then some "abab" else none) "f"
        [("ab", "c")] [] false).2 "f" = some "cc" := by
  have h := c2_sequential_replacement (fun q => if q = "f" then some "abab" else none)
    "f" "abab" [("ab", "c")] (by decide)
  refine ⟨?_, ?_⟩
  · rw [h.2.1]
    decide
  · rw [h.2.2.2]
    decide

/-- C7: `search_in_file` returns at most the configured cap of matches when
the cap is positive (with `match_count` the number returned and `truncated`
computed by the code's `max_matches > 0 and len(matches) >= max_matches`
formula), and a negative cap means unlimited: every matching line is
returned. -/
theorem c7_search_cap (fs : FS) (p content : String) (m : String → Bool) (mm : Int)
    (hfs : fs p = some content) :
    (0 < mm → ((search_in_file_fs fs p m mm).found.length : Int) ≤ mm) ∧
    (search_in_file_fs fs p m mm).match_count
      = (search_in_file_fs fs p m mm).found.length ∧
    (search_in_file_fs fs p m mm).truncated
      = some (decide (0 < mm)
          && decide (mm ≤ ((search_in_file_fs fs p m mm).found.length : Int))) ∧
    (mm < 0 →
      (search_in_file_fs fs p m mm).found
        = allMatches m 1 (fileIterLines (uNewlines content))) := by
  have hred : search_in_file_fs fs p m mm = searchCore m mm (uNewlines content) := by
    simp only [search_in_file_fs, hfs]
  rw [hred]
  refine ⟨?_, rfl, rfl, ?_⟩
  · intro hpos
    have hb := searchLoop_length_le m mm (fileIterLines (uNewlines content)) 1 0 hpos
      (by exact_mod_cast hpos)
    simpa using hb
  · intro hneg
    exact searchLoop_nonpos m mm (by omega) _ 1 0

/-- Witness for C7: with `max_matches = 2` on a file of 5 matching lines the
search returns exactly 2 matches with `truncated = true`; with a negative cap
it returns all 5. -/
theorem c7_witness :
    ((search_in_file_fs (fun q => if q = "f" then some "a\nb\nc\nd\ne\n" else none) "f"
        (fun _ => true) 2).found.length : Int) ≤ 2 ∧
    (search_in_file_fs (fun q => if q = "f" then some "a\nb\nc\nd\ne\n" else none) "f"
        (fun _ => true) 2).found.length = 2 ∧
    (search_in_file_fs (fun q => if q = "f" then some "a\nb\nc\nd\ne\n" else none) "f"
        (fun _ => true) 2).truncated = some true ∧
    (search_in_file_fs (fun q => if q = "f" then some "a\nb\nc\nd\ne\n" else none) "f"
        (fun _ => true) (-1)).found.length = 5 := by
  refine ⟨(c7_search_cap (fun q => if q = "f" then some "a\nb\nc\nd\ne\n" else none) "f"
      "a\nb\nc\nd\ne\n" (fun _ => true) 2 (by decide)).1 (by decide),
    by decide, by decide, by decide⟩

/-- With default arguments (`start_line = 1`, all lines), `show_file`
succeeds on any content with at least one line and returns all lines
rejoined. -/
theorem show_file_core_default (content : String) (hne : pySplitlines content ≠ []) :
    show_file_core content 1 none
      = { success := true, content := pyJoinNl (pySplitlines content),
          lines_shown := (pySplitlines content).length,
          total_lines := (pySplitlines content).length,
          start_line := some 1, end_line := some (pySplitlines content).length } := by
  have hT : 0 < (pySplitlines content).length := List.length_pos.mpr hne
  simp only [show_file_core, pySliceFrom]
  norm_num
  rw [if_neg hne]
  have hc : ¬(((pySplitlines content).length : Int) < 0) := not_lt.mpr (Int.natCast_nonneg _)
  simp only [if_neg hc, min_self, List.take_length]

/-- C8 (amended): for every path and every NON-empty content, writing it with
`write_file(path, content, "w")` and then showing it with default arguments
succeeds and returns exactly the written content's line decomposition joined
with `"\n"`.  (On empty content `show_file` fails: see the counterexample and
C9.) -/
theorem c8_round_trip (fs : FS) (p content : String) (h : content ≠ "") :
    (write_file_fs fs p content "w").1.success = true ∧
    show_file_fs (write_file_fs fs p content "w").2 p 1 none
      = { success := true, content := pyJoinNl (pySplitlines content),
          lines_shown := (pySplitlines content).length,
          total_lines := (pySplitlines content).length,
          start_line := some 1, end_line := some (pySplitlines content).length } := by
  have hdne := string_data_ne_nil content h
  have hne : pySplitlines content ≠ [] := by
    unfold pySplitlines pySplitlinesL
    rw [if_neg (by rw [List.isEmpty_eq_false.mpr hdne]; exact Bool.false_ne_true)]
    intro hx
    exact slAux_ne_nil [] content.data (List.map_eq_nil_iff.mp hx)
  have hfs : (write_file_fs fs p content "w").2 p = some content := by
    simp [write_file_fs]
  refine ⟨by simp [write_file_fs], ?_⟩
  simp only [show_file_fs, hfs]
  rw [show_file_core_default (uNewlines content)
    (by rw [pySplitlines_uNewlines]; exact hne)]
  rw [pySplitlines_uNewlines]

/-- Counterexample to C8 as stated: writing the empty string and then showing
the file FAILS (an empty file has zero lines and the default start line 1 is
beyond it), so the round trip does not succeed for every content string. -/
theorem c8_counterexample :
    (show_file_fs (write_file_fs (fun _ => none) "f" "" "w").2 "f" 1 none).success
      = false := by decide

/-- Witness for C8: writing `"x\ny"` and showing it returns both lines. -/
theorem c8_witness :
    (write_file_fs (fun _ => none) "g" "x\ny" "w").1.success = true ∧
    show_file_fs (write_file_fs (fun _ => none) "g" "x\ny" "w").2 "g" 1 none
      = { success := true, content := "x\ny", lines_shown := 2, total_lines := 2,
          start_line := some 1, end_line := some 2 } := by
  have h := c8_round_trip (fun _ => none) "g" "x\ny" (by decide)
  refine ⟨h.1, ?_⟩
  rw [h.2]
  decide

/-- C9: on an existing file whose content is the empty string, `show_file`
returns `success = false` with the start-line-beyond-file-length error for
every `start_line` (including the default 1) and every `num_lines`: an empty
file can never be displayed successfully. -/
theorem c9_empty_file_never_shown (fs : FS) (p : String) (startLine : Int)
    (numLines : Option Int) (hfs : fs p = some "") :
    show_file_fs fs p startLine numLines
      = { success := false,
          error := some
            s!"Start line {max 1 startLine} is beyond the file length ({(0 : Nat)} lines)",
          total_lines := 0 } := by
  simp only [show_file_fs, hfs]
  unfold show_file_core
  rw [show pySplitlines (uNewlines "") = [] from rfl]
  simp only [List.length_nil]
  have hpos : (0 : Int) < max 1 startLine := lt_of_lt_of_le one_pos (le_max_left 1 startLine)
  rw [if_pos (by exact_mod_cast hpos)]

/-- Witness for C9: a file holding `""` cannot be shown even with the default
arguments. -/
theorem c9_witness :
    show_file_fs (fun q => if q = "e" then some "" else none) "e" 1 none
      = { success := false,
          error := some "Start line 1 is beyond the file length (0 lines)",
          total_lines := 0 } := by
  rw [c9_empty_file_never_shown (fun q => if q = "e" then some "" else none) "e" 1 none
    (by decide)]
  decide

/-- C10: on an existing file whose content ends with a newline, a non-empty
line-operation batch in which every operation records failure still makes
`edit_file` rewrite the file with the content's `splitlines` joined by
`"\n"` — strictly shorter than the original, the trailing newline being
dropped — and report `success = true` and `changed = true`. -/
theorem c10_failed_batch_still_rewrites (fs : FS) (p content : String) (ops : List LineOp)
    (hfs : fs p = some content)
    (hnl : content.data.getLast? = some '\n')
    (hops : ops ≠ [])
    (hfail : ∀ r ∈ (edit_file_fs fs p [] ops false).1.line_operations_performed,
      r.success = false) :
    (edit_file_fs fs p [] ops false).1.success = true ∧
    (edit_file_fs fs p [] ops false).1.changed = some true ∧
    (edit_file_fs fs p [] ops false).2 p = some (pyJoinNl (pySplitlines content)) ∧
    (pyJoinNl (pySplitlines content)).length < content.length := by
  have hred : edit_file_fs fs p [] ops false = editRun fs p (uNewlines content) [] ops := by
    simp only [edit_file_fs, hfs]
  have hisE : ops.isEmpty = false := List.isEmpty_eq_false.mpr hops
  have hcore : editApply (uNewlines content) [] ops
      = { content := pyJoinNl (applyLineOps (pySplitlines (uNewlines content)) ops).1,
          counts := [],
          lineOps := (applyLineOps (pySplitlines (uNewlines content)) ops).2 } := by
    unfold editApply
    rw [if_neg (by rw [hisE]; exact Bool.false_ne_true)]
    rfl
  rw [hred] at hfail ⊢
  simp only [editRun, hcore] at hfail ⊢
  have hframe : (applyLineOps (pySplitlines (uNewlines content)) ops).1
      = pySplitlines (uNewlines content) := by
    apply runOps_all_fail
    exact hfail
  have hlt : (pyJoinNl (pySplitlines content)).length < (uNewlines content).length := by
    rw [← pySplitlines_uNewlines]
    exact pyJoin_pySplit_length_lt content hnl
  have hneq : uNewlines content ≠ pyJoinNl (pySplitlines content) := by
    intro heq
    have hx := hlt
    rw [heq] at hx
    exact lt_irrefl _ hx
  rw [hframe, pySplitlines_uNewlines]
  refine ⟨by trivial, ?_, ?_, ?_⟩
  · rw [bne_iff_ne.mpr hneq]
  · simp
  · calc (pyJoinNl (pySplitlines content)).length
        < (uNewlines content).length := hlt
      _ ≤ content.length := uNewlinesL_length_le content.data

/-- Witness for C10: a file holding `"a\n"` edited with the failing batch
`[Delete(startLine=5, endLine=3)]` is rewritten to `"a"` with success and
`changed = true`. -/
theorem c10_witness :
    (edit_file_fs (fun q => if q = "f" then some "a\n" else none) "f" []
        [LineOp.delete 5 (some 3)] false).1.success = true ∧
    (edit_file_fs (fun q => if q = "f" then some "a\n" else none) "f" []
        [LineOp.delete 5 (some 3)] false).1.changed = some true ∧
    (edit_file_fs (fun q => if q = "f" then some "a\n" else none) "f" []
        [LineOp.delete 5 (some 3)] false).2 "f" = some "a" := by
  have h := c10_failed_batch_still_rewrites
    (fun q => if q = "f" then some "a\n" else none) "f" "a\n" [LineOp.delete 5 (some 3)]
    (by decide) (by decide) (by decide) (by decide)
  refine ⟨h.1, h.2.1, ?_⟩
  rw [h.2.2.1]
  decide

/-- A world in which launching a subprocess raises `FileNotFoundError`
(e.g. the chromium binary is not installed) while everything else works. -/
def badWorld : World where
  pathExists := fun _ => true
  readText := fun _ => Except.ok ""
  writeText := fun _ _ => Except.ok ()
  mkdirParents := fun _ => Except.ok ()
  runProc := fun _ _ _ => Except.error (PyErr.exn "FileNotFoundError: chromium")
  compileRegex := fun _ _ => Except.ok (fun _ => false)
  pdfExtract := fun _ => Except.ok ""
  tmpPdfPath := "/tmp/page.pdf"

/-- A world whose primitives all succeed. -/
def okWorld : World where
  pathExists := fun _ => true
  readText := fun _ => Except.ok ""
  writeText := fun _ _ => Except.ok ()
  mkdirParents := fun _ => Except.ok ()
  runProc := fun _ _ _ => Except.ok { stdout := "", stderr := "", returncode := 0 }
  compileRegex := fun _ _ => Except.ok (fun _ => true)
  pdfExtract := fun _ => Except.ok "text"
  tmpPdfPath := "/tmp/page.pdf"

/-- Counterexample to C6 as stated: `fetch_page` does NOT convert every
failure into its structured result.  In a world where launching the browser
raises (`chromium` missing), the exception propagates to the caller as an
unhandled fault instead of an error-prefixed string, because `fetch_page`
has a `try`/`finally` with no `except` arm. -/
theorem c6_counterexample :
    fetch_page_w badWorld "https://example.com"
      = Except.error (PyErr.exn "FileNotFoundError: chromium") := rfl

/-- C6 (amended): `execute_shell_command`, `show_file`, `search_in_file` and
`write_file` catch every failure arising inside the handler and convert it
into their structured `success:false` result; `edit_file` does so as well
except that its create-if-missing setup (parent-directory creation and the
initial empty write) runs before the `try` block, so the call is guaranteed
to return a structured result whenever the file exists, createIfMissing is
off, or those two setup primitives succeed.  `fetch_page` is excluded: it
only converts a nonzero browser exit code into an error-prefixed string,
and exceptions from the browser launch or the PDF text extraction
propagate (see the counterexample). -/
theorem c6_handlers_catch_failures (w : World) (cmd : List String) (t : Int)
    (wd : Option String) (p pat content mode : String) (cs : Bool) (mm sl : Int)
    (nl : Option Int) (reps : List (String × String)) (ops : List LineOp) (cim : Bool)
    (hsetup : w.pathExists p = false → cim = true →
      (w.mkdirParents p).isOk = true ∧ (w.writeText p "").isOk = true) :
    (execute_shell_command_w w cmd t wd).isOk = true ∧
    (show_file_w w p sl nl).isOk = true ∧
    (search_in_file_w w p pat cs mm).isOk = true ∧
    (write_file_w w p content mode).isOk = true ∧
    (edit_file_w w p reps ops cim).isOk = true := by
  refine ⟨rfl, rfl, rfl, rfl, ?_⟩
  unfold edit_file_w
  by_cases h1 : w.pathExists p = false ∧ cim = false
  · rw [if_pos h1]
    rfl
  · rw [if_neg h1]
    by_cases hp : w.pathExists p = false
    · have hcim : cim = true := by
        rcases not_and_or.mp h1 with h | h
        · exact absurd hp h
        · cases cim
          · exact absurd rfl h
          · rfl
      obtain ⟨hmk, hwr⟩ := hsetup hp hcim
      rw [if_pos hp]
      cases hmkv : w.mkdirParents p with
      | error e =>
        rw [hmkv] at hmk
        cases hmk
      | ok u =>
        cases hwrv : w.writeText p "" with
        | error e =>
          rw [hwrv] at hwr
          cases hwr
        | ok v =>
          simp only [hmkv, hwrv]
          rfl
    · rw [if_neg hp]
      rfl

/-- Witness for the amended C6: in the all-succeeding world every handler
other than `fetch_page` returns a structured result. -/
theorem c6_witness :
    (execute_shell_command_w okWorld ["ls"] 60 none).isOk = true ∧
    (show_file_w okWorld "f" 1 none).isOk = true ∧
    (search_in_file_w okWorld "f" "x" true 100).isOk = true ∧
    (write_file_w okWorld "f" "c" "w").isOk = true ∧
    (edit_file_w okWorld "f" [] [] false).isOk = true :=
  c6_handlers_catch_failures okWorld ["ls"] 60 none "f" "x" "c" "w" true 100 1 none [] [] false
    (fun h _ => absurd h (by decide))

end McpServer
